import Mathlib

/-!
Verification of `trainer_stage_two_new.py` (AF-DeepSfMLearner).

This file shallowly embeds the parts of `Trainer` that the properties below
concern: the name-resolution behaviour of the monocular branch of
`predict_poses`, the loss aggregation of `compute_losses` and
`compute_reprojection_loss`, the partial state-dict merge and freezing logic
of `load_model`, and the correspondence-selection logic of `pose_by_ransac`.

Modelling conventions:
- Python machine floats are modelled by `ℚ`; a floating-point division whose
  denominator is zero (which yields NaN or inf at run time) is modelled by
  `Option ℚ`, `none` standing for the non-finite result, and arithmetic on
  such values propagates `none` the way IEEE arithmetic propagates NaN.
- A tensor of shape pixels x channels is `List (List ℚ)` (outer list: pixels,
  inner list: channels); a single-channel map such as an occlusion mask is a
  `List ℚ`.
- `detach` only stops gradients in PyTorch; on values it is the identity, and
  it is modelled as such.
- Exceptions are modelled with `Except`.
-/

namespace AFSfM

/-- Python-level errors that the embedded code can raise. -/
inductive PyError where
  | nameError : String → PyError
  | typeError : PyError
  deriving DecidableEq, Repr

/-- A frame identifier: an integer offset, or the stereo frame `"s"`. -/
inductive FrameId where
  | idx : Int → FrameId
  | s : FrameId
  deriving DecidableEq, Repr

/-! ## C1: the monocular branch of `predict_poses`

`predict_poses` (lines 292-374) loops over `frame_ids[1:]`; for each
non-stereo neighbour it runs a straight-line block of statements.  We model
each statement by the list of local names it reads (in source order) and the
list of local names it binds, and execute the block under Python's
name-resolution rule: reading a name bound by no earlier statement (and not a
parameter) raises a `NameError`.

Modelled from the spec: the module globals (coming from `utils` and `layers`
star-imports, which are not part of this repository snapshot) do not define
`h_side`, `w_side`, `conf`, `ref`, `target`, `intrinsic_inv_gpu`, `pose_gt`
or `img_path`; the spec (§9) states these names are "not-yet-defined
variables ... in the pose-prediction path". -/

/-- Local names bound when control reaches the non-stereo branch body of the
`for f_i in self.opt.frame_ids[1:]` loop: the function parameters, `outputs`
(line 295), `pose_feats` (lines 297-300) and the loop variable `f_i`. -/
def monoBranchEntryBound : List String :=
  ["self", "inputs", "features", "disps", "outputs", "pose_feats", "f_i"]

/-- The statements of the monocular branch (source lines 307-331), each as
(names read, names bound).  Reads of module-level names that are genuinely
defined (`torch`, `F`, ...) are omitted.  The `try: conf = conf[...]
except: conf = conf` statement (lines 322-325) reads `conf` on both paths, so
it is modelled as a single statement reading `conf`. -/
def monoBranchStmts : List (List String × List String) :=
  [ (["pose_feats", "f_i"], ["inputs_all"]),
    (["pose_feats", "f_i"], ["inputs_all_reverse"]),
    (["self", "inputs_all"], ["position_inputs"]),
    (["self", "inputs_all_reverse"], ["position_inputs_reverse"]),
    (["self", "position_inputs"], ["outputs_0"]),
    (["self", "position_inputs_reverse"], ["outputs_1"]),
    (["position_inputs"], ["flow_2D"]),
    (["h_side", "w_side"], []),
    (["flow_2D", "h_side", "w_side"], ["flow_2D"]),
    (["conf", "h_side", "w_side"], ["conf"]),
    (["self", "flow_2D", "ref", "target", "intrinsic_inv_gpu", "h_side",
      "w_side", "pose_gt", "img_path"], ["P_mat", "E_mat"]) ]

/-- Run a straight-line block: at each statement, the first read of a name
not currently bound raises `NameError` for that name; otherwise the
statement's bindings are added to the scope. -/
def runStmts (bound : List String) :
    List (List String × List String) → Except PyError (List String)
  | [] => .ok bound
  | (reads, binds) :: rest =>
      match reads.find? (fun n => !bound.contains n) with
      | some n => .error (.nameError n)
      | none => runStmts (bound ++ binds) rest

/-- One pass of the `for f_i in self.opt.frame_ids[1:]` loop body of
`predict_poses`: stereo frames are skipped (the whole body is guarded by
`if f_i != "s"`), non-stereo frames execute the monocular block. -/
def predict_poses_loop : List FrameId → Except PyError Unit
  | [] => .ok ()
  | f :: rest =>
      if f = FrameId.s then predict_poses_loop rest
      else
        match runStmts monoBranchEntryBound monoBranchStmts with
        | .error e => .error e
        | .ok _ => predict_poses_loop rest

/-- `Trainer.predict_poses` (lines 292-374): the loop only runs when
`self.num_pose_frames == 2`; otherwise the function returns the empty
`outputs` dictionary untouched. -/
def predict_poses (numPoseFrames : Nat) (frameIds : List FrameId) :
    Except PyError Unit :=
  if numPoseFrames = 2 then predict_poses_loop frameIds.tail
  else .ok ()

/-- The names the claim lists as read undefined around the `pose_by_ransac`
call site. -/
def undefinedPoseNames : List String :=
  ["h_side", "w_side", "conf", "ref", "target", "intrinsic_inv_gpu",
   "pose_gt", "img_path"]

end AFSfM

namespace AFSfM

/-! ## The loss aggregator: `compute_losses` (lines 449-498) and
`compute_reprojection_loss` (lines 436-447)

A tensor of shape pixels x channels is `List (List ℚ)`; masks are single
channel (`List ℚ`).  The non-finite result of a floating-point division by
zero is `none : Option ℚ`, and `none` propagates through `oadd`, `oscale`
and `odivc` the way NaN propagates through float arithmetic. -/

/-- Image tensor: outer list indexes pixels, inner list channels. -/
def Tensor := List (List ℚ)

/-- Mean of a list of rationals (`torch.mean` over one axis). -/
def meanList (l : List ℚ) : ℚ := l.sum / l.length

/-- `.detach()` stops gradients only; on values it is the identity. -/
def detach (t : Tensor) : Tensor := t

/-- Addition on possibly-non-finite values: NaN propagates. -/
def oadd : Option ℚ → Option ℚ → Option ℚ
  | some a, some b => some (a + b)
  | _, _ => none

/-- Scaling by a finite constant: NaN propagates. -/
def oscale (c : ℚ) : Option ℚ → Option ℚ := Option.map (fun x => c * x)

/-- Division by a finite nonzero constant: NaN propagates. -/
def odivc (o : Option ℚ) (c : ℚ) : Option ℚ := o.map (fun x => x / c)

/-- Float division: denominator zero yields the non-finite marker. -/
def fdiv (a b : ℚ) : Option ℚ := if b = 0 then none else some (a / b)

/-- Sum of possibly-non-finite values, as accumulated by `x = 0; x += ...`
in the source. -/
def osum (l : List (Option ℚ)) : Option ℚ := l.foldl oadd (some 0)

/-- Channel `c` of a tensor, as a list over pixels. -/
def channelList (t : Tensor) (c : Nat) : List ℚ :=
  t.map (fun px => px.getD c 0)

/-- Number of channels of a tensor. -/
def numChannels (t : Tensor) : Nat := (t.headD []).length

/-- Modelled from the spec: the SSIM layer of `layers.py` (a file that is
not part of this repository snapshot).  The spec describes it only as a
"structural-similarity term"; it is modelled per channel with whole-image
statistics and the standard SSIM constants `C1 = 0.01^2`, `C2 = 0.03^2`,
returning the dissimilarity `clamp((1 - SSIM)/2, 0, 1)` as in the
monodepth-style layer the trainer instantiates. -/
def ssimChannel (xs ys : List ℚ) : ℚ :=
  let mx := meanList xs
  let my := meanList ys
  let sx := meanList (xs.map (fun v => v ^ 2)) - mx ^ 2
  let sy := meanList (ys.map (fun v => v ^ 2)) - my ^ 2
  let sxy := meanList (List.zipWith (fun a b => a * b) xs ys) - mx * my
  let nmr := (2 * mx * my + 1 / 10000) * (2 * sxy + 9 / 10000)
  let dnm := (mx ^ 2 + my ^ 2 + 1 / 10000) * (sx + sy + 9 / 10000)
  max 0 (min 1 ((1 - nmr / dnm) / 2))

/-- `self.ssim(pred, target).mean(1, True)`: the per-pixel channel mean of
the SSIM dissimilarity (constant across pixels in the whole-image-statistics
model). -/
def ssimMeanMap (pred target : Tensor) : List ℚ :=
  pred.map (fun _ =>
    meanList ((List.range (numChannels pred)).map
      (fun c => ssimChannel (channelList pred c) (channelList target c))))

/-- `Trainer.compute_reprojection_loss` (lines 436-447): per-pixel loss map.
`abs_diff = |target - pred|`, `l1_loss = abs_diff.mean(1, True)`; with SSIM
enabled the result is `0.85 * ssim + 0.15 * l1`. -/
def compute_reprojection_loss (no_ssim : Bool) (pred target : Tensor) :
    List ℚ :=
  let l1_loss :=
    (List.zipWith (fun tPx pPx =>
        meanList (List.zipWith (fun tc pc => |tc - pc|) tPx pPx)) target pred)
  if no_ssim then l1_loss
  else
    List.zipWith (fun s l => 85 / 100 * s + 15 / 100 * l)
      (ssimMeanMap pred target) l1_loss

/-- The per-frame reprojection term of `compute_losses` (lines 476-477):
`(compute_reprojection_loss(color_pred, registration) * occu_mask_backward)
.sum() / occu_mask_backward.sum()`. -/
def reproTerm (no_ssim : Bool) (colorPred registration : Tensor)
    (mask : List ℚ) : Option ℚ :=
  fdiv (List.zipWith (fun a b => a * b)
      (compute_reprojection_loss no_ssim colorPred registration) mask).sum
    mask.sum

/-- The per-frame transform-consistency term of `compute_losses`
(lines 478-479): `(torch.abs(r - r.detach()).mean(1, True) *
occu_mask_backward).sum() / occu_mask_backward.sum()`. -/
def transTerm (registration : Tensor) (mask : List ℚ) : Option ℚ :=
  fdiv (List.zipWith (fun a b => a * b)
      ((List.zipWith (List.zipWith (fun x y => |x - y|))
          registration (detach registration)).map meanList) mask).sum
    mask.sum

/-- Adjacent-pixel absolute differences of a single-channel map. -/
def adjDiffs (l : List ℚ) : List ℚ :=
  (List.zipWith (fun a b => |a - b|) l l.tail)

/-- Modelled from the spec: `get_smooth_bright` of `layers.py` (not part of
this repository snapshot).  The spec describes it as "edge-aware spatial
smoothness of the appearance-transform output, weighted by image gradients
and occlusion mask"; it is modelled as the masked, gradient-weighted sum of
adjacent-pixel variations of the transform output.  The detached
registration argument is carried but the spec assigns it no role. -/
def get_smooth_bright (th color registration : Tensor) (mask : List ℚ) : ℚ :=
  let _ := registration
  (List.zipWith (fun a b => a * b)
    (List.zipWith (fun d g => d * (1 / (1 + g)))
      (adjDiffs (th.map meanList)) (adjDiffs (color.map meanList)))
    mask).sum

/-- Modelled from the spec: `get_smooth_loss` of `layers.py` (not part of
this repository snapshot): "edge-aware smoothness of the normalized
disparity map", modelled as the gradient-weighted mean of adjacent-pixel
disparity variations. -/
def get_smooth_loss (disp : List ℚ) (color : Tensor) : ℚ :=
  meanList (List.zipWith (fun d g => d * (1 / (1 + g)))
    (adjDiffs disp) (adjDiffs (color.map meanList)))

/-- The hyperparameters `compute_losses` reads from `self.opt` and
`self.num_scales`. -/
structure TrainOpts where
  scales : List Nat
  frameIdsTail : List FrameId
  transform_constraint : ℚ
  transform_smoothness : ℚ
  disparity_smoothness : ℚ
  no_ssim : Bool

/-- The entries of the `inputs` dictionary the loss code reads. -/
structure LossInputs where
  /-- `inputs[("color", 0, scale)]`. -/
  color0 : Nat → Tensor

/-- The entries of the `outputs` dictionary the loss code reads, keyed the
way the string keys `"color_f_s"`, `"r_s_f"`, `"th_s_f"`, `"omaskb_0_f"`
and `"disp_s"` are built. -/
structure LossOutputs where
  /-- `outputs["color_" + f + "_" + s]`: the warped prediction. -/
  colorPred : FrameId → Nat → Tensor
  /-- `outputs["r_" + s + "_" + f]`: the registration. -/
  reg : Nat → FrameId → Tensor
  /-- `outputs["th_" + s + "_" + f]`: the upsampled transform. -/
  th : Nat → FrameId → Tensor
  /-- `outputs["omaskb_0_" + f]`: the scale-0 backward occlusion mask. -/
  omaskb0 : FrameId → List ℚ
  /-- `outputs["disp_" + s]`: the disparity (single channel). -/
  disp : Nat → List ℚ

/-- The body of the per-scale loop of `compute_losses` (lines 457-494),
abstracted over the neighbour-frame list it folds over. -/
def per_scale_loss (opts : TrainOpts) (inputs : LossInputs)
    (outputs : LossOutputs) (frames : List FrameId) (scale : Nat) :
    Option ℚ :=
  let disp := outputs.disp scale
  let color := inputs.color0 scale
  let acc := frames.foldl
    (fun (acc : Option ℚ × Option ℚ × ℚ) frame_id =>
      let occu_mask_backward := outputs.omaskb0 frame_id
      (oadd acc.1 (reproTerm opts.no_ssim (outputs.colorPred frame_id scale)
          (outputs.reg scale frame_id) occu_mask_backward),
       oadd acc.2.1 (transTerm (outputs.reg scale frame_id)
          occu_mask_backward),
       acc.2.2 + get_smooth_bright (outputs.th scale frame_id)
          (inputs.color0 0) (detach (outputs.reg scale frame_id))
          occu_mask_backward))
    (some 0, some 0, 0)
  let mean_disp := meanList disp
  let norm_disp := disp.map (fun d => d / (mean_disp + 1 / 10000000))
  let smooth_loss := get_smooth_loss norm_disp color
  let loss := oadd (some 0) (odivc acc.1 2)
  let loss := oadd loss (oscale opts.transform_constraint (odivc acc.2.1 2))
  let loss := oadd loss (oscale opts.transform_smoothness (some (acc.2.2 / 2)))
  let loss := oadd loss
    (some (opts.disparity_smoothness * smooth_loss / 2 ^ scale))
  loss

/-- The record returned by `compute_losses`: `losses["loss/{s}"]` per scale
and the final `losses["loss"]`. -/
structure LossRecord where
  perScale : List (Nat × Option ℚ)
  total : Option ℚ
  deriving DecidableEq

/-- `Trainer.compute_losses` (lines 449-498): per-scale losses accumulated
into `total_loss`, which is divided by `self.num_scales =
len(self.opt.scales)` at the end. -/
def compute_losses (opts : TrainOpts) (inputs : LossInputs)
    (outputs : LossOutputs) : LossRecord :=
  let perScale := opts.scales.map (fun scale =>
    (scale, per_scale_loss opts inputs outputs opts.frameIdsTail scale))
  { perScale := perScale,
    total := odivc (perScale.foldl (fun t p => oadd t p.2) (some 0))
      (opts.scales.length) }

/-- The closed form of the per-scale loss asserted by the spec:
`reprojection/2 + transform_constraint * (transform/2) +
transform_smoothness * (cvt/2) + disparity_smoothness * smooth / 2^scale`,
each of the first three being the equal-weight accumulation of the per-frame
terms over the neighbour frames. -/
def per_scale_formula (opts : TrainOpts) (inputs : LossInputs)
    (outputs : LossOutputs) (frames : List FrameId) (scale : Nat) :
    Option ℚ :=
  let loss_reprojection := osum (frames.map (fun f =>
    reproTerm opts.no_ssim (outputs.colorPred f scale) (outputs.reg scale f)
      (outputs.omaskb0 f)))
  let loss_transform := osum (frames.map (fun f =>
    transTerm (outputs.reg scale f) (outputs.omaskb0 f)))
  let loss_cvt := (frames.map (fun f =>
    get_smooth_bright (outputs.th scale f) (inputs.color0 0)
      (detach (outputs.reg scale f)) (outputs.omaskb0 f))).sum
  let smooth_loss := get_smooth_loss
    ((outputs.disp scale).map (fun d =>
      d / (meanList (outputs.disp scale) + 1 / 10000000)))
    (inputs.color0 scale)
  oadd (oadd (oadd (odivc loss_reprojection 2)
      (oscale opts.transform_constraint (odivc loss_transform 2)))
      (oscale opts.transform_smoothness (some (loss_cvt / 2))))
    (some (opts.disparity_smoothness * smooth_loss / 2 ^ scale))

/-! ## Checkpoint loading: `load_model` (lines 664-692) -/

/-- A state dict is a finite map from parameter names to values, modelled as
a partial function. -/
def StateDict := String → Option ℚ

/-- The dict comprehension of line 678:
`{k: v for k, v in pretrained_dict.items() if k in model_dict}`. -/
def filter_to_model (pretrained cur : StateDict) : StateDict :=
  fun k => if (cur k).isSome then pretrained k else none

/-- Python's `dict.update`: entries of `u` override entries of `d`. -/
def dict_update (d u : StateDict) : StateDict :=
  fun k => match u k with
    | some v => some v
    | none => d k

/-- Lines 676-680 of `load_model`: the state dict the model ends up holding
after `model_dict.update(pretrained_dict); load_state_dict(model_dict)`. -/
def load_state_dict_merge (cur pretrained : StateDict) : StateDict :=
  dict_update cur (filter_to_model pretrained cur)

/-- A module parameter: its `requires_grad` flag and value. -/
structure PParam where
  requires_grad : Bool
  data : ℚ

/-- The aspects of an `nn.Module` that `load_model` touches: its
train/eval flag, its parameters, and its state dict. -/
structure PModel where
  training : Bool
  params : List PParam
  sd : StateDict

/-- The per-model body of the `for n in self.opt.models_to_load` loop
(lines 673-683): merge the checkpoint into the state dict, switch to eval
mode, and clear `requires_grad` on every parameter. -/
def load_model_step (ckpt : StateDict) (m : PModel) : PModel :=
  { sd := load_state_dict_merge m.sd ckpt,
    training := false,
    params := m.params.map (fun p => { p with requires_grad := false }) }

/-- `Trainer.load_model` (lines 664-692): fold the per-model step over
`models_to_load`, updating `self.models` in place. -/
def load_model (ckpts : String → StateDict) (models_to_load : List String)
    (models : String → PModel) : String → PModel :=
  models_to_load.foldl
    (fun ms n => Function.update ms n (load_model_step (ckpts n) (ms n)))
    models

/-! ## `pose_by_ransac` (lines 694-790)

The OpenCV detectors (`self.sift`, `self.surf`), the FLANN matcher and the
external `compute_P_matrix_ransac` are collaborators outside this file's
code; their outputs are inputs of the model.  A per-item environment records
the keypoints each detector finds and the matcher's result (with `none`
standing for the exception the bare `except:` of line 740 catches).  The
entry appended to `PTS1`/`PTS2` on the exception path is the one-element
list `[None]`, modelled as `[none]`. -/

/-- An image point. -/
def Pt := ℚ × ℚ
deriving DecidableEq

/-- A FLANN match: indices into the two keypoint lists plus a distance. -/
structure DMatch where
  queryIdx : Nat
  trainIdx : Nat
  distance : ℚ

/-- Per-batch-item collaborator outputs: keypoints of the primary (SIFT) and
secondary (SURF) detectors, and the kNN matches (with `k = 2`) obtained from
the descriptors of each detector; `none` models the exception path of
lines 727-742. -/
structure MatchEnv where
  kp1 : List Pt
  kp2 : List Pt
  surf_kp1 : List Pt
  surf_kp2 : List Pt
  sift_matches : Option (List (DMatch × DMatch))
  surf_matches : Option (List (DMatch × DMatch))

/-- Lines 720-725: the secondary detector is used when the primary finds too
few keypoints in either frame. -/
def useSurf (minMatches : Nat) (env : MatchEnv) : Bool :=
  env.kp1.length < minMatches || env.kp2.length < minMatches

/-- The keypoint lists of the detector actually used. -/
def chosenKps (minMatches : Nat) (env : MatchEnv) : List Pt × List Pt :=
  if useSurf minMatches env then (env.surf_kp1, env.surf_kp2)
  else (env.kp1, env.kp2)

/-- The matcher result on the descriptors of the detector actually used. -/
def chosenMatches (minMatches : Nat) (env : MatchEnv) :
    Option (List (DMatch × DMatch)) :=
  if useSurf minMatches env then env.surf_matches else env.sift_matches

/-- Lines 730-732: the nearest-neighbour ratio test.  A pair `(m, n)` is
kept when `m.distance < 0.8 * n.distance`; the kept matches' keypoint
coordinates are collected from `kp1[m.queryIdx]` and `kp2[m.trainIdx]`. -/
def ratioPts (k1 k2 : List Pt) (ms : List (DMatch × DMatch)) :
    List Pt × List Pt :=
  let good := ms.filter (fun p => p.1.distance < 8 / 10 * p.2.distance)
  (good.map (fun p => k1.getD p.1.queryIdx ((0 : ℚ), (0 : ℚ))),
   good.map (fun p => k2.getD p.1.trainIdx ((0 : ℚ), (0 : ℚ))))

/-- Lines 735-738: the degraded mode that accepts every candidate match. -/
def allPts (k1 k2 : List Pt) (ms : List (DMatch × DMatch)) :
    List Pt × List Pt :=
  (ms.map (fun p => k1.getD p.1.queryIdx ((0 : ℚ), (0 : ℚ))),
   ms.map (fun p => k2.getD p.1.trainIdx ((0 : ℚ), (0 : ℚ))))

/-- The first per-item loop of `pose_by_ransac` (lines 709-742): the pair of
point lists appended to `PTS1` and `PTS2` for one batch item. -/
def matchItem (minMatches : Nat) (env : MatchEnv) :
    List (Option Pt) × List (Option Pt) :=
  let kps := chosenKps minMatches env
  match chosenMatches minMatches env with
  | none => ([none], [none])
  | some ms =>
      let p := ratioPts kps.1 kps.2 ms
      let q := if p.1.length < minMatches then allPts kps.1 kps.2 ms else p
      (q.1.map some, q.2.map some)

/-- A 3-vector of rationals. -/
structure Vec3 where
  x : ℚ
  y : ℚ
  z : ℚ
  deriving DecidableEq

/-- A 3x3 matrix as its three rows. -/
structure Mat3 where
  r0 : Vec3
  r1 : Vec3
  r2 : Vec3
  deriving DecidableEq

/-- Dot product of 3-vectors. -/
def dot3 (a b : Vec3) : ℚ := a.x * b.x + a.y * b.y + a.z * b.z

/-- Matrix-vector product. -/
def mulVec (m : Mat3) (v : Vec3) : Vec3 :=
  ⟨dot3 m.r0 v, dot3 m.r1 v, dot3 m.r2 v⟩

/-- The dense homogeneous flow-coordinate fields of one batch item,
`coord1_flow_2D[b]` and `coord2_flow_2D[b]` (channel, row, column), plus
their spatial extent. -/
structure FlowCoords where
  h : Nat
  w : Nat
  at1 : Nat → ℤ → ℤ → ℚ
  at2 : Nat → ℤ → ℤ → ℚ

/-- `np.round`: round half to even, as NumPy does. -/
def npRound (q : ℚ) : ℤ :=
  let f := ⌊q⌋
  if q - f < 1 / 2 then f
  else if 1 / 2 < q - f then f + 1
  else if f % 2 = 0 then f else f + 1

/-- Lines 756-758: the dense fallback
`coord[batch, :, margin:-margin, margin:-margin].view(3, -1)` with
`margin = 10` (line 700): every pixel of the 10-pixel-margin-trimmed grid,
in row-major order. -/
def denseSel (c : Nat → ℤ → ℤ → ℚ) (h w : Nat) : List Vec3 :=
  (List.range (h - 2 * 10)).flatMap (fun row =>
    (List.range (w - 2 * 10)).map (fun col =>
      ⟨c 0 (row + 10) (col + 10), c 1 (row + 10) (col + 10),
       c 2 (row + 10) (col + 10)⟩))

/-- Run a fallible action over a list, aborting at the first error, as a
Python `for` loop over batch items does when an exception escapes. -/
def mapExcept (f : α → Except PyError β) : List α → Except PyError (List β)
  | [] => .ok []
  | a :: t =>
      match f a with
      | .error e => .error e
      | .ok b =>
          match mapExcept f t with
          | .error e => .error e
          | .ok bs => .ok (b :: bs)

/-- Lines 769-771 (the `cfg.SAMPLE_SP == False` default): round the matched
source points and read both coordinate fields at those integer pixel
positions (`coord2` too is indexed with `pts1`).  `np.round` applied to the
`[None]` entry of the exception path raises; the error result models that
crash. -/
def kpSel (c : Nat → ℤ → ℤ → ℚ) (entry : List (Option Pt)) :
    Except PyError (List Vec3) :=
  mapExcept (fun op =>
    match op with
    | some p => .ok ⟨c 0 (npRound p.2) (npRound p.1),
        c 1 (npRound p.2) (npRound p.1), c 2 (npRound p.2) (npRound p.1)⟩
    | none => .error .typeError) entry

/-- Lines 749-753 (the `cfg.SIFT_POSE` branch): use the matched points
themselves, in homogeneous coordinates. -/
def siftPoseSel (entry : List (Option Pt)) : Except PyError (List Vec3) :=
  mapExcept (fun op =>
    match op with
    | some p => .ok ⟨p.1, p.2, 1⟩
    | none => .error .typeError) entry

/-- Bilinear interpolation of one channel of a coordinate field at a real
pixel position (the effect of `F.grid_sample(..., align_corners=True)` after
the `[-1, 1]` normalisation of line 764, which it exactly inverts). -/
def bilinearAt (c : Nat → ℤ → ℤ → ℚ) (ch : Nat) (px py : ℚ) : ℚ :=
  let x0 := ⌊px⌋
  let y0 := ⌊py⌋
  let dx := px - x0
  let dy := py - y0
  (1 - dx) * (1 - dy) * c ch y0 x0 + dx * (1 - dy) * c ch y0 (x0 + 1) +
    (1 - dx) * dy * c ch (y0 + 1) x0 + dx * dy * c ch (y0 + 1) (x0 + 1)

/-- Lines 760-766 (the `cfg.SAMPLE_SP` branch): sample both coordinate
fields at the (fractional) matched source points. -/
def gridSampleSel (c : Nat → ℤ → ℤ → ℚ) (entry : List (Option Pt)) :
    Except PyError (List Vec3) :=
  mapExcept (fun op =>
    match op with
    | some p => .ok ⟨bilinearAt c 0 p.1 p.2, bilinearAt c 1 p.1 p.2,
        bilinearAt c 2 p.1 p.2⟩
    | none => .error .typeError) entry

/-- Lines 773-780: project the selected homogeneous points by the inverse
intrinsics and keep the first two components. -/
def normalizePts (kinv : Mat3) (vs : List Vec3) : List Pt :=
  vs.map (fun v => ((mulVec kinv v).x, (mulVec kinv v).y))

/-- The `cfg` flags `pose_by_ransac` consults. -/
structure RCfg where
  SIFT_POSE : Bool
  SAMPLE_SP : Bool

/-- Modelled from the spec: `compute_P_matrix_ransac` (the GPU RANSAC
five-point estimator) is defined outside this repository snapshot; the spec
treats it as an external collaborator.  An invocation is modelled as a
record of the normalised correspondences and intrinsics handed to it. -/
structure RansacCall where
  kinv : Mat3
  pts1 : List Pt
  pts2 : List Pt
  deriving DecidableEq

/-- The second per-item loop of `pose_by_ransac` (lines 746-789): select the
correspondence points for one batch item, normalise them by the inverse
intrinsics, and run RANSAC on them. -/
def pose_by_ransac_item (cfg : RCfg) (minMatches : Nat) (fc : FlowCoords)
    (kinv : Mat3) (e1 e2 : List (Option Pt)) : Except PyError RansacCall :=
  if cfg.SIFT_POSE then
    match siftPoseSel e1, siftPoseSel e2 with
    | .ok v1, .ok v2 => .ok ⟨kinv, normalizePts kinv v1, normalizePts kinv v2⟩
    | .error e, _ => .error e
    | _, .error e => .error e
  else if e1.length < minMatches ∨ e2.length < minMatches then
    .ok ⟨kinv, normalizePts kinv (denseSel fc.at1 fc.h fc.w),
      normalizePts kinv (denseSel fc.at2 fc.h fc.w)⟩
  else if cfg.SAMPLE_SP then
    match gridSampleSel fc.at1 e1, gridSampleSel fc.at2 e1 with
    | .ok v1, .ok v2 => .ok ⟨kinv, normalizePts kinv v1, normalizePts kinv v2⟩
    | .error e, _ => .error e
    | _, .error e => .error e
  else
    match kpSel fc.at1 e1, kpSel fc.at2 e1 with
    | .ok v1, .ok v2 => .ok ⟨kinv, normalizePts kinv v1, normalizePts kinv v2⟩
    | .error e, _ => .error e
    | _, .error e => .error e

/-- Everything `pose_by_ransac` consumes for one batch item. -/
structure ItemData where
  env : MatchEnv
  fc : FlowCoords
  kinv : Mat3

/-- `Trainer.pose_by_ransac` (lines 694-790) over a whole batch: build the
`PTS1`/`PTS2` entries for every item, then select, normalise and estimate
per item; an uncaught exception in the second loop aborts the batch. -/
def pose_by_ransac (cfg : RCfg) (minMatches : Nat) (items : List ItemData) :
    Except PyError (List RansacCall) :=
  mapExcept (fun it =>
    let e := matchItem minMatches it.env
    pose_by_ransac_item cfg minMatches it.fc it.kinv e.1 e.2) items

end AFSfM

namespace AFSfM

/-- Claim C1: for every call of `predict_poses` on a batch whose frame_ids
contain a non-stereo neighbour frame (and the usual pairwise pose setup,
`num_pose_frames = 2`), the monocular branch reads `h_side`, `w_side`,
`conf`, `ref`, `target`, `intrinsic_inv_gpu`, `pose_gt` and `img_path`
without any of them being bound in the enclosing scope, so `predict_poses`
raises a `NameError` (on the first such read, `h_side`) and never completes
normally. -/
theorem predict_poses_raises_nameError
    (frameIds : List FrameId)
    (hmono : ∃ f ∈ frameIds.tail, f ≠ FrameId.s) :
    predict_poses 2 frameIds = .error (.nameError "h_side") ∧
      undefinedPoseNames.all (fun n => !monoBranchEntryBound.contains n) = true := by
  constructor
  · unfold predict_poses
    simp only [if_pos rfl]
    obtain ⟨f, hf, hfs⟩ := hmono
    generalize frameIds.tail = l at hf
    induction l with
    | nil => cases hf
    | cons a rest ih =>
        unfold predict_poses_loop
        rcases List.mem_cons.mp hf with h | h
        · subst h
          rw [if_neg hfs]
          rfl
        · by_cases ha : a = FrameId.s
          · rw [if_pos ha]; exact ih h
          · rw [if_neg ha]; rfl
  · decide

/-- Witness for C1 at the standard configuration
`frame_ids = [0, -1, 1]`. -/
theorem predict_poses_raises_nameError_witness :
    (∃ f ∈ ([FrameId.idx 0, FrameId.idx (-1), FrameId.idx 1] : List FrameId).tail,
        f ≠ FrameId.s) ∧
      (predict_poses 2 [FrameId.idx 0, FrameId.idx (-1), FrameId.idx 1] =
          .error (.nameError "h_side") ∧
        undefinedPoseNames.all (fun n => !monoBranchEntryBound.contains n) = true) :=
  ⟨⟨FrameId.idx (-1), by decide, by decide⟩,
    predict_poses_raises_nameError _ ⟨FrameId.idx (-1), by decide, by decide⟩⟩

end AFSfM

namespace AFSfM

/-! ## Helper lemmas for the loss theorems -/

theorem zipWith_map_same (h : α → α → β) (f g : γ → α) (l : List γ) :
    List.zipWith h (l.map f) (l.map g) = l.map (fun v => h (f v) (g v)) := by
  induction l with
  | nil => rfl
  | cons a t ih => simp [ih]

theorem zipWith_self (f : α → α → β) (l : List α) :
    List.zipWith f l l = l.map (fun v => f v v) := by
  induction l with
  | nil => rfl
  | cons a t ih => simp [ih]

theorem sum_map_const_zero (l : List α) :
    (l.map (fun _ => (0 : ℚ))).sum = 0 := by
  induction l with
  | nil => rfl
  | cons a t ih => simp [ih]

theorem meanList_map_zero (l : List α) :
    meanList (l.map (fun _ => (0 : ℚ))) = 0 := by
  simp [meanList, sum_map_const_zero]

theorem sum_zipWith_zero_left (l : List α) (m : List ℚ) :
    (List.zipWith (fun a b => a * b) (l.map (fun _ => (0 : ℚ))) m).sum = 0 := by
  induction l generalizing m with
  | nil => rfl
  | cons a t ih =>
      cases m with
      | nil => rfl
      | cons b mt =>
          simp only [List.map_cons, List.zipWith_cons_cons, List.sum_cons,
            zero_mul, zero_add]
          exact ih mt

theorem sum_all_ones (m : List ℚ) (h : ∀ v ∈ m, v = 1) :
    m.sum = m.length := by
  induction m with
  | nil => simp
  | cons a t ih =>
      have ha : a = 1 := h a (List.mem_cons_self a t)
      have ht := ih (fun v hv => h v (List.mem_cons_of_mem a hv))
      simp [ha, ht, add_comm]

theorem oadd_some_zero (o : Option ℚ) : oadd (some 0) o = o := by
  cases o <;> simp [oadd]

theorem oadd_right_comm (a u v : Option ℚ) :
    oadd (oadd a u) v = oadd (oadd a v) u := by
  cases a <;> cases u <;> cases v <;> simp [oadd, add_right_comm]

theorem foldl_oadd_perm {l1 l2 : List (Option ℚ)} (h : l1.Perm l2) :
    ∀ a, l1.foldl oadd a = l2.foldl oadd a := by
  induction h with
  | nil => intro a; rfl
  | cons v _ ih => intro a; simpa using ih (oadd a v)
  | swap u v t =>
      intro a
      simp only [List.foldl_cons]
      rw [oadd_right_comm]
  | trans _ _ ih1 ih2 => intro a; rw [ih1 a, ih2 a]

theorem osum_perm {l1 l2 : List (Option ℚ)} (h : l1.Perm l2) :
    osum l1 = osum l2 :=
  foldl_oadd_perm h (some 0)

theorem foldl_oadd_map (t : α → Option ℚ) (l : List α) (a : Option ℚ) :
    l.foldl (fun acc v => oadd acc (t v)) a = (l.map t).foldl oadd a :=
  (List.foldl_map t oadd l a).symm

theorem foldl_oadd_all_zero (l : List α) (t : α → Option ℚ)
    (h : ∀ g ∈ l, t g = some 0) :
    ∀ c : ℚ, (l.map t).foldl oadd (some c) = some c := by
  induction l with
  | nil => intro c; rfl
  | cons a s ih =>
      intro c
      have ha : t a = some 0 := h a (List.mem_cons_self a s)
      simp only [List.map_cons, List.foldl_cons, ha]
      have : oadd (some c) (some 0) = some c := by simp [oadd]
      rw [this]
      exact ih (fun g hg => h g (List.mem_cons_of_mem a hg)) c

theorem osum_all_zero (l : List α) (t : α → Option ℚ)
    (h : ∀ g ∈ l, t g = some 0) : osum (l.map t) = some 0 :=
  foldl_oadd_all_zero l t h 0

/-- The triple accumulator of the per-frame loop of `compute_losses`,
rewritten as three independent folds. -/
theorem foldl_triple (t1 t2 : α → Option ℚ) (t3 : α → ℚ) (l : List α)
    (a b : Option ℚ) (c : ℚ) :
    l.foldl (fun (acc : Option ℚ × Option ℚ × ℚ) v =>
        (oadd acc.1 (t1 v), oadd acc.2.1 (t2 v), acc.2.2 + t3 v)) (a, b, c)
      = (l.foldl (fun x v => oadd x (t1 v)) a,
         l.foldl (fun x v => oadd x (t2 v)) b, c + (l.map t3).sum) := by
  induction l generalizing a b c with
  | nil => simp
  | cons v s ih =>
      simp only [List.foldl_cons, List.map_cons, List.sum_cons]
      rw [ih]
      simp only [add_assoc]

theorem two_mul_sum_le (a : ℚ) (l : List ℚ) :
    2 * a * l.sum ≤ l.length * a ^ 2 + (l.map (fun v => v ^ 2)).sum := by
  induction l with
  | nil => simp
  | cons b t ih =>
      simp only [List.sum_cons, List.length_cons, List.map_cons]
      have hb := two_mul_le_add_sq a b
      push_cast
      nlinarith [ih, hb]

theorem sq_sum_le_card_mul (l : List ℚ) :
    l.sum ^ 2 ≤ (l.map (fun v => v ^ 2)).sum * l.length := by
  induction l with
  | nil => simp
  | cons a t ih =>
      simp only [List.sum_cons, List.length_cons, List.map_cons]
      have h2 := two_mul_sum_le a t
      have hsq := sq_nonneg a
      push_cast
      nlinarith [ih, h2]

theorem meanList_sq_le (l : List ℚ) :
    (meanList l) ^ 2 ≤ meanList (l.map (fun v => v ^ 2)) := by
  rcases eq_or_ne l [] with h | h
  · subst h; simp [meanList]
  · have hn : (0 : ℚ) < l.length := by
      have := List.length_pos.mpr h
      exact_mod_cast this
    have key := sq_sum_le_card_mul l
    have hml : (l.map (fun v => v ^ 2)).length = l.length := List.length_map _ _
    simp only [meanList, hml, div_pow]
    rw [div_le_div_iff₀ (by positivity) hn]
    calc l.sum ^ 2 * (l.length : ℚ)
        ≤ ((l.map (fun v => v ^ 2)).sum * l.length) * l.length := by
          exact mul_le_mul_of_nonneg_right key (le_of_lt hn)
      _ = (l.map (fun v => v ^ 2)).sum * ((l.length : ℚ) ^ 2) := by ring

theorem variance_nonneg (l : List ℚ) :
    0 ≤ meanList (l.map (fun v => v ^ 2)) - (meanList l) ^ 2 :=
  sub_nonneg.mpr (meanList_sq_le l)

theorem clamp_ratio_one (a b : ℚ) (hab : a = b) (hb : b ≠ 0) :
    max 0 (min 1 ((1 - a / b) / 2)) = 0 := by
  subst hab
  rw [div_self hb]
  norm_num

theorem ssimChannel_self (xs : List ℚ) : ssimChannel xs xs = 0 := by
  have hzip : List.zipWith (fun a b => a * b) xs xs
      = xs.map (fun v => v ^ 2) := by
    rw [zipWith_self]
    exact List.map_congr_left (fun v _ => (sq v).symm)
  have hv := variance_nonneg xs
  simp only [ssimChannel, hzip]
  refine clamp_ratio_one _ _ (by ring) ?_
  have hfac1 : (0 : ℚ) < meanList xs ^ 2 + meanList xs ^ 2 + 1 / 10000 := by
    positivity
  have hfac2 : (0 : ℚ) <
      (meanList (xs.map (fun v => v ^ 2)) - meanList xs ^ 2)
        + (meanList (xs.map (fun v => v ^ 2)) - meanList xs ^ 2)
        + 9 / 10000 := by
    have h9 : (0 : ℚ) < 9 / 10000 := by norm_num
    linarith
  exact ne_of_gt (mul_pos hfac1 hfac2)

end AFSfM

namespace AFSfM

theorem osum_map (t : α → Option ℚ) (l : List α) :
    l.foldl (fun acc v => oadd acc (t v)) (some 0) = osum (l.map t) :=
  foldl_oadd_map t l (some 0)

/-- The imperative per-scale loop body equals the closed per-scale
formula. -/
theorem per_scale_loss_eq (opts : TrainOpts) (inputs : LossInputs)
    (outputs : LossOutputs) (frames : List FrameId) (scale : Nat) :
    per_scale_loss opts inputs outputs frames scale
      = per_scale_formula opts inputs outputs frames scale := by
  simp only [per_scale_loss, per_scale_formula, foldl_triple, osum_map,
    oadd_some_zero, zero_add]

theorem foldl_oadd_snd_map (g : Nat → Option ℚ) (l : List Nat) :
    (l.map (fun s => (s, g s))).foldl (fun t p => oadd t p.2) (some 0)
      = osum (l.map g) := by
  rw [List.foldl_map]
  exact osum_map g l

/-- Claim C2: for every batch, the per-scale training loss computed by
`compute_losses` equals `loss_reprojection/2 + transform_constraint *
(loss_transform/2) + transform_smoothness * (loss_cvt/2) +
disparity_smoothness * smooth_loss / 2^scale`, with the per-frame
reprojection, transform-consistency and smoothness terms accumulated with
equal weight across the neighbour frames, and the final scalar loss is the
mean (sum divided by the number of scales) of these per-scale totals over
all scales. -/
theorem compute_losses_formula (opts : TrainOpts) (inputs : LossInputs)
    (outputs : LossOutputs) :
    compute_losses opts inputs outputs =
      { perScale := opts.scales.map (fun scale =>
          (scale, per_scale_formula opts inputs outputs opts.frameIdsTail
            scale)),
        total := odivc
          (osum (opts.scales.map
            (per_scale_formula opts inputs outputs opts.frameIdsTail)))
          opts.scales.length } := by
  simp only [compute_losses, per_scale_loss_eq, foldl_oadd_snd_map,
    List.length_map]

/-- The transform-consistency term vanishes whenever the mask sum is
nonzero: the tensor is compared with its own detached copy. -/
theorem transTerm_eq_zero (t : Tensor) (m : List ℚ) (hm : m.sum ≠ 0) :
    transTerm t m = some 0 := by
  have h1 : List.zipWith (List.zipWith (fun x y => |x - y|)) t (detach t)
      = t.map (fun px => px.map (fun _ => (0 : ℚ))) := by
    show List.zipWith (List.zipWith (fun x y => |x - y|)) t t = _
    rw [zipWith_self]
    refine List.map_congr_left (fun px _ => ?_)
    rw [zipWith_self]
    exact List.map_congr_left (fun v _ => by simp)
  have h2 : (t.map (fun px => px.map (fun _ => (0 : ℚ)))).map meanList
      = t.map (fun _ => (0 : ℚ)) := by
    rw [List.map_map]
    exact List.map_congr_left (fun px _ => meanList_map_zero px)
  simp only [transTerm, h1, h2, sum_zipWith_zero_left, fdiv, if_neg hm,
    zero_div]

/-- Claim C3: for every batch, scale and neighbour frame (with a
non-degenerate occlusion mask, cf. C8), the transform-consistency term of
`compute_losses` is zero — it compares the registration tensor with its own
detached copy — and therefore the `transform_constraint`-weighted term
contributes nothing: the per-scale loss does not depend on the
`transform_constraint` weight. -/
theorem transform_consistency_zero (opts : TrainOpts) (inputs : LossInputs)
    (outputs : LossOutputs) (frames : List FrameId) (scale : Nat)
    (f : FrameId) (hf : (outputs.omaskb0 f).sum ≠ 0)
    (hall : ∀ g ∈ frames, (outputs.omaskb0 g).sum ≠ 0) :
    transTerm (outputs.reg scale f) (outputs.omaskb0 f) = some 0 ∧
      ∀ c : ℚ, per_scale_loss opts inputs outputs frames scale
        = per_scale_loss { opts with transform_constraint := c } inputs
            outputs frames scale := by
  constructor
  · exact transTerm_eq_zero _ _ hf
  · intro c
    have hz : osum (frames.map (fun g =>
        transTerm (outputs.reg scale g) (outputs.omaskb0 g))) = some 0 :=
      osum_all_zero frames _ (fun g hg => transTerm_eq_zero _ _ (hall g hg))
    rw [per_scale_loss_eq, per_scale_loss_eq]
    simp only [per_scale_formula, hz, odivc, oscale, Option.map_some',
      zero_div, mul_zero]

/-- Claim C8: for every scale and neighbour frame, the reprojection and
transform-consistency terms divide by the sum of the (detached) backward
occlusion mask with no guard: an all-zero mask makes the mask sum zero and
both terms non-finite (`none`, the division-by-zero marker) rather than
taking an error branch or a fallback. -/
theorem mask_zero_unguarded_division (no_ssim : Bool)
    (colorPred registration : Tensor) (mask : List ℚ)
    (h : ∀ v ∈ mask, v = 0) :
    mask.sum = 0 ∧
      reproTerm no_ssim colorPred registration mask = none ∧
      transTerm registration mask = none := by
  have hs : mask.sum = 0 := List.sum_eq_zero h
  exact ⟨hs, by simp [reproTerm, fdiv, hs], by simp [transTerm, fdiv, hs]⟩

/-- Witness for C8 at the all-zero mask `[0, 0]`. -/
theorem mask_zero_unguarded_division_witness :
    (∀ v ∈ ([0, 0] : List ℚ), v = 0) ∧
      (([0, 0] : List ℚ).sum = 0 ∧
        reproTerm false [[1]] [[1]] [0, 0] = none ∧
        transTerm [[1]] [0, 0] = none) :=
  ⟨by simp, mask_zero_unguarded_division false [[1]] [[1]] [0, 0] (by simp)⟩

end AFSfM

namespace AFSfM

/-- Witness for C3 at a one-frame, one-scale configuration with mask `[1]`. -/
theorem transform_consistency_zero_witness :
    (([1] : List ℚ).sum ≠ 0) ∧
      (transTerm [[2]] [1] = some 0 ∧
        ∀ c : ℚ,
          per_scale_loss ⟨[0], [FrameId.idx 1], 1, 1, 1, true⟩
              ⟨fun _ => [[1]]⟩
              ⟨fun _ _ => [[1]], fun _ _ => [[2]], fun _ _ => [[1]],
                fun _ => [1], fun _ => [1]⟩ [FrameId.idx 1] 0
            = per_scale_loss
              { (⟨[0], [FrameId.idx 1], 1, 1, 1, true⟩ : TrainOpts) with
                transform_constraint := c }
              ⟨fun _ => [[1]]⟩
              ⟨fun _ _ => [[1]], fun _ _ => [[2]], fun _ _ => [[1]],
                fun _ => [1], fun _ => [1]⟩ [FrameId.idx 1] 0) := by
  have hf : (([1] : List ℚ)).sum ≠ 0 := by simp
  refine ⟨hf, ?_⟩
  exact transform_consistency_zero ⟨[0], [FrameId.idx 1], 1, 1, 1, true⟩
    ⟨fun _ => [[1]]⟩
    ⟨fun _ _ => [[1]], fun _ _ => [[2]], fun _ _ => [[1]],
      fun _ => [1], fun _ => [1]⟩ [FrameId.idx 1] 0 (FrameId.idx 1) hf
    (fun g _ => hf)

/-- Claim C4: for every batch and scale the per-scale (and total) loss
computed by `compute_losses` is invariant under any permutation of the
neighbour-frame order: the accumulation over `frame_ids[1:]` is a
commutative sum. -/
theorem compute_losses_frame_order_invariant (opts : TrainOpts)
    (inputs : LossInputs) (outputs : LossOutputs) (l1 l2 : List FrameId)
    (h : l1.Perm l2) :
    compute_losses { opts with frameIdsTail := l1 } inputs outputs
      = compute_losses { opts with frameIdsTail := l2 } inputs outputs := by
  have hps : ∀ scale, per_scale_loss opts inputs outputs l1 scale
      = per_scale_loss opts inputs outputs l2 scale := by
    intro scale
    rw [per_scale_loss_eq, per_scale_loss_eq]
    simp only [per_scale_formula]
    rw [osum_perm (h.map _), osum_perm (h.map _), (h.map _).sum_eq]
  simp only [compute_losses]
  have : ∀ l : List FrameId,
      per_scale_loss { opts with frameIdsTail := l } inputs outputs
        = per_scale_loss opts inputs outputs := fun _ => rfl
  simp only [this, List.length_map]
  rw [show (fun scale => (scale, per_scale_loss opts inputs outputs l1 scale))
      = (fun scale => (scale, per_scale_loss opts inputs outputs l2 scale))
    from funext (fun s => by rw [hps s])]

/-- Witness for C4: swapping the two neighbour frames `-1` and `1`. -/
theorem compute_losses_frame_order_invariant_witness :
    ([FrameId.idx (-1), FrameId.idx 1].Perm
        [FrameId.idx 1, FrameId.idx (-1)]) ∧
      compute_losses
          { scales := [0], frameIdsTail := [FrameId.idx (-1), FrameId.idx 1],
            transform_constraint := 1, transform_smoothness := 1,
            disparity_smoothness := 1, no_ssim := true }
          ⟨fun _ => [[1]]⟩
          ⟨fun _ _ => [[1]], fun _ _ => [[2]], fun _ _ => [[1]],
            fun _ => [1], fun _ => [1]⟩
        = compute_losses
          { scales := [0], frameIdsTail := [FrameId.idx 1, FrameId.idx (-1)],
            transform_constraint := 1, transform_smoothness := 1,
            disparity_smoothness := 1, no_ssim := true }
          ⟨fun _ => [[1]]⟩
          ⟨fun _ _ => [[1]], fun _ _ => [[2]], fun _ _ => [[1]],
            fun _ => [1], fun _ => [1]⟩ := by
  have hperm : ([FrameId.idx (-1), FrameId.idx 1].Perm
      [FrameId.idx 1, FrameId.idx (-1)]) :=
    List.Perm.swap (FrameId.idx 1) (FrameId.idx (-1)) []
  exact ⟨hperm, compute_losses_frame_order_invariant
    { scales := [0], frameIdsTail := [FrameId.idx (-1), FrameId.idx 1],
      transform_constraint := 1, transform_smoothness := 1,
      disparity_smoothness := 1, no_ssim := true }
    ⟨fun _ => [[1]]⟩
    ⟨fun _ _ => [[1]], fun _ _ => [[2]], fun _ _ => [[1]],
      fun _ => [1], fun _ => [1]⟩ _ _ hperm⟩

/-- `compute_reprojection_loss` of a tensor against itself is the all-zero
per-pixel map, in both the L1-only and the SSIM branches. -/
theorem compute_reprojection_loss_self (b : Bool) (t : Tensor) :
    compute_reprojection_loss b t t = t.map (fun _ => (0 : ℚ)) := by
  have hl1 : List.zipWith (fun tPx pPx =>
      meanList (List.zipWith (fun tc pc => |tc - pc|) tPx pPx)) t t
      = t.map (fun _ => (0 : ℚ)) := by
    rw [zipWith_self]
    refine List.map_congr_left (fun px _ => ?_)
    rw [zipWith_self]
    have : px.map (fun v => |v - v|) = px.map (fun _ => (0 : ℚ)) :=
      List.map_congr_left (fun v _ => by simp)
    rw [this, meanList_map_zero]
  have hssim : ssimMeanMap t t = t.map (fun _ => (0 : ℚ)) := by
    simp only [ssimMeanMap]
    refine List.map_congr_left (fun px _ => ?_)
    have : (List.range (numChannels t)).map
        (fun c => ssimChannel (channelList t c) (channelList t c))
        = (List.range (numChannels t)).map (fun _ => (0 : ℚ)) :=
      List.map_congr_left (fun c _ => ssimChannel_self _)
    rw [this, meanList_map_zero]
  cases b with
  | true => simpa [compute_reprojection_loss] using hl1
  | false =>
      simp only [compute_reprojection_loss, Bool.false_eq_true, if_false,
        hl1, hssim, zipWith_map_same]
      refine List.map_congr_left (fun px _ => by norm_num)

/-- Claim C9: for every scale and neighbour frame, if the warped prediction
equals the registration target and the backward occlusion mask is all-ones
(and nonempty), then the masked, mask-normalised reprojection term built
from `compute_reprojection_loss` is zero. -/
theorem reprojection_term_zero (no_ssim : Bool) (pred target : Tensor)
    (mask : List ℚ) (heq : pred = target) (hone : ∀ v ∈ mask, v = 1)
    (hne : mask ≠ []) :
    reproTerm no_ssim pred target mask = some 0 := by
  subst heq
  have hlen : mask.sum = mask.length := sum_all_ones mask hone
  have hpos : (0 : ℚ) < mask.length := by
    have := List.length_pos.mpr hne
    exact_mod_cast this
  have hnz : mask.sum ≠ 0 := by rw [hlen]; exact ne_of_gt hpos
  simp only [reproTerm, compute_reprojection_loss_self,
    sum_zipWith_zero_left, fdiv, if_neg hnz, zero_div]

/-- Witness for C9: identical one-pixel images under the all-ones mask
`[1]`, with the SSIM branch enabled. -/
theorem reprojection_term_zero_witness :
    (([[1, 2]] : Tensor) = [[1, 2]] ∧ (∀ v ∈ ([1] : List ℚ), v = 1) ∧
        ([1] : List ℚ) ≠ []) ∧
      reproTerm false [[1, 2]] [[1, 2]] [1] = some 0 :=
  ⟨⟨rfl, by simp, by simp⟩,
    reprojection_term_zero false [[1, 2]] [[1, 2]] [1] rfl (by simp)
      (by simp)⟩

end AFSfM

namespace AFSfM

/-- Claim C5: for every checkpoint whose saved parameter dictionary is a
superset of the model's current parameter keys, the merge performed by
`load_model` (filter to current keys, `update`, `load_state_dict`) updates
exactly the keys present in both dictionaries — here all current keys — and
adds no key outside the current parameter set. -/
theorem load_state_dict_merge_superset (cur pre : StateDict)
    (hsup : ∀ k, (cur k).isSome → (pre k).isSome) :
    (∀ k, (cur k).isSome → load_state_dict_merge cur pre k = pre k) ∧
      (∀ k, cur k = none → load_state_dict_merge cur pre k = cur k) := by
  constructor
  · intro k hk
    have hp := hsup k hk
    obtain ⟨v, hv⟩ := Option.isSome_iff_exists.mp hp
    simp [load_state_dict_merge, dict_update, filter_to_model, hk, hv]
  · intro k hk
    simp [load_state_dict_merge, dict_update, filter_to_model, hk]

/-- Witness for C5: current dict `{a ↦ 1}`, saved dict mapping every key. -/
theorem load_state_dict_merge_superset_witness :
    (∀ k, (((fun k => if k = "a" then some 1 else none) : StateDict) k).isSome
        → (((fun _ => some 2) : StateDict) k).isSome) ∧
      ((∀ k, (((fun k => if k = "a" then some 1 else none) : StateDict)
            k).isSome →
          load_state_dict_merge (fun k => if k = "a" then some 1 else none)
            (fun _ => some 2) k = some 2) ∧
        (∀ k, ((fun k => if k = "a" then some 1 else none) : StateDict)
            k = none →
          load_state_dict_merge (fun k => if k = "a" then some 1 else none)
            (fun _ => some 2) k
            = (if k = "a" then some 1 else none))) :=
  ⟨fun _ _ => rfl,
    load_state_dict_merge_superset (fun k => if k = "a" then some 1 else none)
      (fun _ => some 2) (fun _ _ => rfl)⟩

/-- A model is frozen: eval mode, no parameter requires gradients. -/
def frozen (m : PModel) : Prop :=
  m.training = false ∧ ∀ p ∈ m.params, p.requires_grad = false

theorem load_model_step_frozen (ckpt : StateDict) (m : PModel) :
    frozen (load_model_step ckpt m) := by
  refine ⟨rfl, ?_⟩
  intro p hp
  simp only [load_model_step, List.mem_map] at hp
  obtain ⟨q, _, hq⟩ := hp
  rw [← hq]

theorem load_model_preserves_frozen (ckpts : String → StateDict)
    (names : List String) (models : String → PModel) (n : String)
    (h : frozen (models n)) : frozen (load_model ckpts names models n) := by
  induction names generalizing models with
  | nil => exact h
  | cons a t ih =>
      simp only [load_model, List.foldl_cons]
      refine ih _ ?_
      by_cases hna : n = a
      · subst hna
        rw [Function.update_same]
        exact load_model_step_frozen _ _
      · rw [Function.update_noteq hna]
        exact h

/-- Claim C10: after `load_model` returns, every model named in
`models_to_load` is in eval mode and every one of its parameters has
`requires_grad = false`: all weights loaded from the checkpoint are frozen
and excluded from gradient updates. -/
theorem load_model_freezes (ckpts : String → StateDict)
    (names : List String) (models : String → PModel) (n : String)
    (hn : n ∈ names) :
    (load_model ckpts names models n).training = false ∧
      ∀ p ∈ (load_model ckpts names models n).params,
        p.requires_grad = false := by
  induction names generalizing models with
  | nil => cases hn
  | cons a t ih =>
      simp only [load_model, List.foldl_cons]
      rcases List.mem_cons.mp hn with h | h
      · subst h
        refine load_model_preserves_frozen ckpts t _ n ?_
        rw [Function.update_same]
        exact load_model_step_frozen _ _
      · exact ih _ h

/-- Witness for C10: loading the single model `"encoder"`, initially in
train mode with one gradient-requiring parameter. -/
theorem load_model_freezes_witness :
    ("encoder" ∈ ["encoder"]) ∧
      ((load_model (fun _ _ => none) ["encoder"]
          (fun _ => ⟨true, [⟨true, 5⟩], fun _ => none⟩) "encoder").training
          = false ∧
        ∀ p ∈ (load_model (fun _ _ => none) ["encoder"]
            (fun _ => ⟨true, [⟨true, 5⟩], fun _ => none⟩) "encoder").params,
          p.requires_grad = false) :=
  ⟨List.mem_cons_self _ _,
    load_model_freezes (fun _ _ => none) ["encoder"]
      (fun _ => ⟨true, [⟨true, 5⟩], fun _ => none⟩) "encoder"
      (List.mem_cons_self _ _)⟩

end AFSfM

namespace AFSfM

/-- Claim C6: in `pose_by_ransac`, whenever a batch item has fewer than the
configured minimum number of matches, correspondence points are selected by
densely sampling the flow-coordinate fields on the 10-pixel-margin-trimmed
grid instead of raising an error, and RANSAC pose estimation still runs for
that item (in the default `cfg.SIFT_POSE == False` configuration). -/
theorem insufficient_matches_dense_fallback (cfg : RCfg) (minMatches : Nat)
    (fc : FlowCoords) (kinv : Mat3) (e1 e2 : List (Option Pt))
    (hsift : cfg.SIFT_POSE = false)
    (hlen : e1.length < minMatches ∨ e2.length < minMatches) :
    pose_by_ransac_item cfg minMatches fc kinv e1 e2 =
      .ok ⟨kinv, normalizePts kinv (denseSel fc.at1 fc.h fc.w),
        normalizePts kinv (denseSel fc.at2 fc.h fc.w)⟩ := by
  simp only [pose_by_ransac_item, hsift, Bool.false_eq_true, if_false,
    if_pos hlen]

/-- Witness for C6: a single one-match item under `min_matches = 20`. -/
theorem insufficient_matches_dense_fallback_witness :
    ((⟨false, false⟩ : RCfg).SIFT_POSE = false ∧
        (([some ((1 : ℚ), (2 : ℚ))] : List (Option Pt)).length < 20 ∨
          ([some ((1 : ℚ), (2 : ℚ))] : List (Option Pt)).length < 20)) ∧
      pose_by_ransac_item ⟨false, false⟩ 20
          ⟨21, 21, fun _ _ _ => 0, fun _ _ _ => 0⟩
          ⟨⟨1, 0, 0⟩, ⟨0, 1, 0⟩, ⟨0, 0, 1⟩⟩
          [some ((1 : ℚ), (2 : ℚ))] [some ((1 : ℚ), (2 : ℚ))] =
        .ok ⟨⟨⟨1, 0, 0⟩, ⟨0, 1, 0⟩, ⟨0, 0, 1⟩⟩,
          normalizePts ⟨⟨1, 0, 0⟩, ⟨0, 1, 0⟩, ⟨0, 0, 1⟩⟩
            (denseSel (fun _ _ _ => 0) 21 21),
          normalizePts ⟨⟨1, 0, 0⟩, ⟨0, 1, 0⟩, ⟨0, 0, 1⟩⟩
            (denseSel (fun _ _ _ => 0) 21 21)⟩ :=
  ⟨⟨rfl, Or.inl (by decide)⟩,
    insufficient_matches_dense_fallback ⟨false, false⟩ 20
      ⟨21, 21, fun _ _ _ => 0, fun _ _ _ => 0⟩
      ⟨⟨1, 0, 0⟩, ⟨0, 1, 0⟩, ⟨0, 0, 1⟩⟩ _ _ rfl (Or.inl (by decide))⟩

theorem kpSel_map_some (c : Nat → ℤ → ℤ → ℚ) (l : List Pt) :
    kpSel c (l.map some) = .ok (l.map (fun p =>
      ⟨c 0 (npRound p.2) (npRound p.1), c 1 (npRound p.2) (npRound p.1),
        c 2 (npRound p.2) (npRound p.1)⟩)) := by
  induction l with
  | nil => rfl
  | cons a t ih =>
      simp only [List.map_cons, kpSel, mapExcept] at ih ⊢
      rw [ih]

theorem mapExcept_ok (f : α → Except PyError β) (l : List α)
    (h : ∀ a ∈ l, ∃ b, f a = .ok b) :
    ∃ bs, mapExcept f l = .ok bs := by
  induction l with
  | nil => exact ⟨[], rfl⟩
  | cons a t ih =>
      obtain ⟨b, hb⟩ := h a (List.mem_cons_self a t)
      obtain ⟨bs, hbs⟩ :=
        ih (fun x hx => h x (List.mem_cons_of_mem a hx))
      exact ⟨b :: bs, by simp only [mapExcept, hb, hbs]⟩

theorem pose_by_ransac_item_ok (cfg : RCfg) (minMatches : Nat)
    (fc : FlowCoords) (kinv : Mat3) (env : MatchEnv)
    (hmin : 2 ≤ minMatches) (hsift : cfg.SIFT_POSE = false)
    (hsp : cfg.SAMPLE_SP = false) :
    ∃ r, pose_by_ransac_item cfg minMatches fc kinv
        (matchItem minMatches env).1 (matchItem minMatches env).2 = .ok r := by
  rcases hc : chosenMatches minMatches env with _ | ms
  · have h1 : (matchItem minMatches env).1 = [none] := by
      simp [matchItem, hc]
    have h2 : (matchItem minMatches env).2 = [none] := by
      simp [matchItem, hc]
    rw [h1, h2]
    refine ⟨⟨kinv, normalizePts kinv (denseSel fc.at1 fc.h fc.w),
      normalizePts kinv (denseSel fc.at2 fc.h fc.w)⟩, ?_⟩
    simp only [pose_by_ransac_item, hsift, Bool.false_eq_true, if_false]
    rw [if_pos (Or.inl (by simpa using hmin))]
  · set kps := chosenKps minMatches env
    set p := ratioPts kps.1 kps.2 ms with hp
    set q := if p.1.length < minMatches then allPts kps.1 kps.2 ms else p
      with hq
    have h1 : (matchItem minMatches env).1 = q.1.map some := by
      simp only [matchItem, hc, ← hp, ← hq]
    have h2 : (matchItem minMatches env).2 = q.2.map some := by
      simp only [matchItem, hc, ← hp, ← hq]
    rw [h1, h2]
    by_cases hlen : (q.1.map some).length < minMatches ∨
        (q.2.map some).length < minMatches
    · refine ⟨⟨kinv, normalizePts kinv (denseSel fc.at1 fc.h fc.w),
        normalizePts kinv (denseSel fc.at2 fc.h fc.w)⟩, ?_⟩
      simp only [pose_by_ransac_item, hsift, Bool.false_eq_true, if_false]
      rw [if_pos hlen]
    · refine ⟨⟨kinv,
        normalizePts kinv (q.1.map (fun p =>
          ⟨fc.at1 0 (npRound p.2) (npRound p.1),
           fc.at1 1 (npRound p.2) (npRound p.1),
           fc.at1 2 (npRound p.2) (npRound p.1)⟩)),
        normalizePts kinv (q.1.map (fun p =>
          ⟨fc.at2 0 (npRound p.2) (npRound p.1),
           fc.at2 1 (npRound p.2) (npRound p.1),
           fc.at2 2 (npRound p.2) (npRound p.1)⟩))⟩, ?_⟩
      simp only [pose_by_ransac_item, hsift, hsp, Bool.false_eq_true,
        if_false]
      rw [if_neg hlen, kpSel_map_some, kpSel_map_some]

/-- Claim C7: in `pose_by_ransac`, only total matching failure (the
exception path where no keypoint correspondence can be produced at all)
yields the invalid `[None]` entry for a batch item, and such entries are
tolerated by the downstream per-item processing — given the configured
minimum match count is at least 2 and the default flags, the whole batch
completes without an exception. -/
theorem pose_by_ransac_tolerates_match_failure (cfg : RCfg)
    (minMatches : Nat) (env : MatchEnv) (items : List ItemData)
    (hmin : 2 ≤ minMatches) (hsift : cfg.SIFT_POSE = false)
    (hsp : cfg.SAMPLE_SP = false) :
    ((none ∈ (matchItem minMatches env).1) ↔
        chosenMatches minMatches env = none) ∧
      ∃ rs, pose_by_ransac cfg minMatches items = .ok rs := by
  constructor
  · rcases hc : chosenMatches minMatches env with _ | ms
    · simp [matchItem, hc]
    · simp [matchItem, hc]
  · exact mapExcept_ok _ items (fun it _ =>
      pose_by_ransac_item_ok cfg minMatches it.fc it.kinv it.env hmin hsift
        hsp)

/-- Witness for C7: an item whose matcher raised (no keypoints at all),
with `min_matches = 2`. -/
theorem pose_by_ransac_tolerates_match_failure_witness :
    (2 ≤ 2 ∧ (⟨false, false⟩ : RCfg).SIFT_POSE = false ∧
        (⟨false, false⟩ : RCfg).SAMPLE_SP = false) ∧
      (((none ∈ (matchItem 2 ⟨[], [], [], [], none, none⟩).1) ↔
          chosenMatches 2 ⟨[], [], [], [], none, none⟩ = none) ∧
        ∃ rs, pose_by_ransac ⟨false, false⟩ 2
            [⟨⟨[], [], [], [], none, none⟩,
              ⟨21, 21, fun _ _ _ => 0, fun _ _ _ => 0⟩,
              ⟨⟨1, 0, 0⟩, ⟨0, 1, 0⟩, ⟨0, 0, 1⟩⟩⟩] = .ok rs) :=
  ⟨⟨by decide, rfl, rfl⟩,
    pose_by_ransac_tolerates_match_failure ⟨false, false⟩ 2
      ⟨[], [], [], [], none, none⟩
      [⟨⟨[], [], [], [], none, none⟩,
        ⟨21, 21, fun _ _ _ => 0, fun _ _ _ => 0⟩,
        ⟨⟨1, 0, 0⟩, ⟨0, 1, 0⟩, ⟨0, 0, 1⟩⟩⟩] (by decide) rfl rfl⟩

end AFSfM
